import Mathlib

/-!
Verification of the clink terminal translation layer (win_terminal.cpp) and of
the Lua subprocess-execution facility (lua_exec.cpp), against the repository's
natural-language specification.

The C++ sources are embedded shallowly: machine integers are `Nat` with explicit
masks/mods where overflow or truncation matters, host-API calls (console modes,
attributes, process creation) are explicit state records, and the fixed lookup
tables of the source are plain Lean lists.  Components of the repository whose
code is not available (the ecma48 decoder, the UTF-8 converter of the core
library, the Lua C API) are modelled from the specification and marked as such
in their doc comments.
-/

namespace Clink

/-! ### Host key-event constants (Windows console API values used by the source) -/

def VK_MENU : Nat := 0x12
def VK_PRIOR : Nat := 0x21
def VK_NEXT : Nat := 0x22
def VK_END : Nat := 0x23
def VK_HOME : Nat := 0x24
def VK_LEFT : Nat := 0x25
def VK_UP : Nat := 0x26
def VK_RIGHT : Nat := 0x27
def VK_DOWN : Nat := 0x28
def VK_INSERT : Nat := 0x2d
def VK_DELETE : Nat := 0x2e

def RIGHT_ALT_PRESSED : Nat := 0x0001
def LEFT_ALT_PRESSED : Nat := 0x0002
def RIGHT_CTRL_PRESSED : Nat := 0x0004
def LEFT_CTRL_PRESSED : Nat := 0x0008
def SHIFT_PRESSED : Nat := 0x0010
def ENHANCED_KEY : Nat := 0x0100

/-- Embedding of `static const int CTRL_PRESSED = LEFT_CTRL_PRESSED|RIGHT_CTRL_PRESSED;`
(win_terminal.cpp, `read_console`). -/
def CTRL_PRESSED : Nat := LEFT_CTRL_PRESSED ||| RIGHT_CTRL_PRESSED

/-! ### The input ring buffer (`win_terminal_in`) -/

/-- State of `win_terminal_in`'s ring buffer: the byte array `m_buffer` (its
size is declared in the header `win_terminal.h`, which is not part of the
provided sources; per the spec it is a fixed power of two, taken here as 16),
the head index `m_buffer_head` and the count `m_buffer_count`. -/
structure TermIn where
  bufferSize : Nat
  buffer : Nat → Nat
  head : Nat
  count : Nat

/-- A fresh input buffer (after `win_terminal_in::begin`, which zeroes
`m_buffer_count`).  The byte array's initial contents are unspecified in the
source; zero is used. -/
def emptyTermIn : TermIn := ⟨16, fun _ => 0, 0, 0⟩

/-- Modelled from the spec: `to_utf8` of the core library (not under the
provided sources) converts the host's UTF-16 text to UTF-8.  `push` hands it a
single UTF-16 unit, encoded here by the standard ranges (one byte below 0x80,
two below 0x800, three otherwise). -/
def to_utf8_unit (u : Nat) : List Nat :=
  if u < 0x80 then [u]
  else if u < 0x800 then [0xc0 ||| (u >>> 6), 0x80 ||| (u &&& 0x3f)]
  else [0xe0 ||| (u >>> 12), 0x80 ||| ((u >>> 6) &&& 0x3f), 0x80 ||| (u &&& 0x3f)]

/-- The write loop `for (int i = 0; i < n; ++i, ++index) m_buffer[index & mask] = utf8[i];`
of `win_terminal_in::push`. -/
def writeBytes (mask : Nat) (buffer : Nat → Nat) (index : Nat) : List Nat → (Nat → Nat)
  | [] => buffer
  | b :: rest => writeBytes mask (Function.update buffer (index &&& mask) b) (index + 1) rest

/-- Embedding of `win_terminal_in::push` (win_terminal.cpp lines 260-284).  `mask` is
`sizeof_array(m_buffer) - 1`; a value below 0x80 is stored directly, otherwise
the value is cast to `wchar_t` (truncation to 16 bits), converted to UTF-8, and
the bytes are stored only if they fit in `mask - m_buffer_count`; the count is
incremented by `n` in either case, exactly as in the source. -/
def push (st : TermIn) (value : Nat) : TermIn :=
  let mask := st.bufferSize - 1
  if st.count ≥ st.bufferSize then st
  else
    let index := st.head + st.count
    if value < 0x80 then
      { st with buffer := Function.update st.buffer (index &&& mask) value,
                count := st.count + 1 }
    else
      let wc := value % 0x10000
      let utf8 := to_utf8_unit wc
      let n := utf8.length
      let buffer' := if n ≤ mask - st.count then writeBytes mask st.buffer index utf8
                     else st.buffer
      { st with buffer := buffer', count := st.count + n }

/-- Embedding of `win_terminal_in::pop` (win_terminal.cpp lines 287-298): returns the
sentinel 0xff when empty, else the byte at the head, decrementing the count and
advancing the head under the mask. -/
def pop (st : TermIn) : Nat × TermIn :=
  if st.count = 0 then (0xff, st)
  else (st.buffer st.head,
        { st with count := st.count - 1,
                  head := (st.head + 1) &&& (st.bufferSize - 1) })

/-- Pop `n` bytes in sequence. -/
def popList (st : TermIn) : Nat → List Nat
  | 0 => []
  | n + 1 => (pop st).1 :: popList (pop st).2 n

/-- The bytes currently stored in the buffer, in the order successive `pop`
calls return them. -/
def contents (st : TermIn) : List Nat := popList st st.count

/-! ### The input encoder (`win_terminal_in::read_console`) -/

/-- A host console key event record (`KEY_EVENT_RECORD`), as read by
`read_console`. -/
structure KeyEvent where
  keyDown : Bool
  unicodeChar : Nat
  virtualKey : Nat
  scanCode : Nat
  controlKeyState : Nat

/-- Embedding of `static const int enhanced_vks[]` of `read_console`. -/
def enhanced_vks : List Nat :=
  [VK_UP, VK_DOWN, VK_LEFT, VK_RIGHT, VK_HOME, VK_END,
   VK_INSERT, VK_DELETE, VK_PRIOR, VK_NEXT]

/-- Embedding of `static const int mod_map[][5]` of `read_console`: rows are
(scan code, normal char, shifted char). -/
def mod_map : List (Nat × Nat × Nat) :=
  [ (0x48, 0x41, 0x61),   -- up:     'H', 'A', 'a'
    (0x50, 0x42, 0x62),   -- down:   'P', 'B', 'b'
    (0x4b, 0x44, 0x64),   -- left:   'K', 'D', 'd'
    (0x4d, 0x43, 0x63),   -- right:  'M', 'C', 'c'
    (0x52, 0x32, 0x77),   -- insert: 'R', '2', 'w'
    (0x53, 0x33, 0x65),   -- delete: 'S', '3', 'e'
    (0x47, 0x31, 0x71),   -- home:   'G', '1', 'q'
    (0x4f, 0x34, 0x72),   -- end:    'O', '4', 'r'
    (0x49, 0x35, 0x74),   -- pgup:   'I', '5', 't'
    (0x51, 0x36, 0x79) ]  -- pgdn:   'Q', '6', 'y'

/-- The key-event-processing part of `win_terminal_in::read_console`
(win_terminal.cpp lines 127-257), for a single key event.  The paths on which
the source loops back to read another event (`read_console(); return;` and
`return read_console();`) leave the buffer unchanged here.  `altgrSetting` is
the `terminal.altgr` configuration flag.

Note on the Ctrl-(key) chain (lines 230-239): the source remaps `key_vk` into
the control-code range but then executes `push(key_char)`, and `key_char` is 0
on every path that reaches the chain; the embedding reproduces this. -/
def read_console_key (altgrSetting : Bool) (ev : KeyEvent) (st : TermIn) : TermIn :=
  let key_char := ev.unicodeChar
  let key_vk := ev.virtualKey
  let key_sc := ev.scanCode
  let key_flags := ev.controlKeyState
  if ¬ ev.keyDown then
    -- Alt key-up carrying an Alt-numpad code point is pushed verbatim.
    if key_vk = VK_MENU ∧ key_char ≠ 0 then push st key_char else st
  else
    let altgr_sub := (key_flags &&& LEFT_ALT_PRESSED != 0)
                  && (key_flags &&& (LEFT_CTRL_PRESSED ||| RIGHT_CTRL_PRESSED) != 0)
                  && (key_char != 0)
    let key_char := if altgr_sub && !altgrSetting then 0 else key_char
    let altgr_sub := if altgr_sub && !altgrSetting then false else altgr_sub
    let alt := if altgr_sub then false
               else (key_flags &&& (LEFT_ALT_PRESSED ||| RIGHT_ALT_PRESSED) != 0)
    if key_char = 0 then
      let key_flags := if enhanced_vks.contains key_vk
                       then key_flags ||| ENHANCED_KEY else key_flags
      if key_flags &&& ENHANCED_KEY != 0 then
        match mod_map.find? (fun row => row.1 == key_sc) with
        | some row =>
          -- j = 1 + !!(key_flags & SHIFT_PRESSED)
          let x := if key_flags &&& SHIFT_PRESSED != 0 then row.2.2 else row.2.1
          let st := push st 0x1b
          let st := push st (if key_flags &&& CTRL_PRESSED != 0 then 0x4f else 0x5b)
          push st x
        | none => st
      else if key_flags &&& CTRL_PRESSED = 0 then st
      else
        -- #define CONTAINS(l, r) (unsigned)(key_vk - l) <= (r - l); each hit
        -- remaps key_vk, after which the source pushes key_char (which is 0).
        if 0x41 ≤ key_vk ∧ key_vk ≤ 0x5a then push st key_char
        else if 0xdb ≤ key_vk ∧ key_vk ≤ 0xdd then push st key_char
        else if key_vk = 0x32 then push st key_char
        else if key_vk = 0x36 then push st key_char
        else if key_vk = 0xbd then push st key_char
        else st
    else
      -- Special case for shift-tab.
      if key_char = 0x09 ∧ st.count = 0 ∧ key_flags &&& SHIFT_PRESSED != 0 then
        push (push (push st 0x1b) 0x5b) 0x5a
      else
        let st := if alt then push st 0x1b else st
        push st key_char

/-! ### The escape-code decoder (`ecma48_iter`), modelled from the spec -/

/-- Decoder output (`ecma48_code`): a plain-text run, a single-byte C0 control
code, or a C1 code carrying its kind byte (0x5b = `[` for CSI), final
character, decoded parameters and raw byte string. -/
inductive Ecma48Code where
  | chars (bytes : List Nat)
  | c0 (code : Nat)
  | c1 (kind : Nat) (final : Nat) (params : List Nat) (raw : List Nat)
  deriving DecidableEq, Repr

/-- Modelled from the spec: the persistent `ParseState` of the escape-code
decoder (`ecma48_state`; its code is not under the provided sources) — either
scanning normally, suspended right after an ESC byte, or suspended inside a CSI
sequence holding the parameters closed so far, the digits accumulated for the
current parameter, and the raw bytes of the sequence. -/
inductive ParseState where
  | normal
  | esc
  | csi (params : List Nat) (acc : Nat) (raw : List Nat)
  deriving DecidableEq, Repr

/-- Close the parameter being accumulated: the parameter count is capped
(spec: bound of 32; excess parameters are discarded, not an error). -/
def pushParam (params : List Nat) (acc : Nat) : List Nat :=
  if params.length < 32 then params ++ [acc] else params

/-- Emit the pending text run (if nonempty) in front of a scan result. -/
def flushChars (acc : List Nat) (r : List Ecma48Code × ParseState) :
    List Ecma48Code × ParseState :=
  if acc = [] then r else (Ecma48Code.chars acc :: r.1, r.2)

/-- Prepend one code to a scan result. -/
def consCode (c : Ecma48Code) (r : List Ecma48Code × ParseState) :
    List Ecma48Code × ParseState :=
  (c :: r.1, r.2)

/-- Modelled from the spec: the restartable scanner of the escape-code decoder
(`ecma48_iter`; its code is not under the provided sources).  One byte is
consumed per step; `acc` is the text run accumulated in the current call (a
text run ends at the next control introducer or at end of input, so it is not
part of the persistent state).  Classification per the spec: bytes below 0x20
other than ESC are single-byte C0 codes; ESC `[` opens a CSI sequence whose
digit/`;` bytes build a bounded parameter list (empty parameters default to 0)
and whose first byte outside `0-9;` is the final character; ESC followed by any
other byte is a non-CSI C1 code of that kind; any other byte run is text.  If
input ends mid-sequence the partial state is returned for the next call. -/
def scanAux : List Nat → ParseState → List Nat → List Ecma48Code × ParseState
  | [], st, acc => flushChars acc ([], st)
  | b :: rest, ParseState.normal, acc =>
      if b = 0x1b then flushChars acc (scanAux rest ParseState.esc [])
      else if b < 0x20 then
        flushChars acc (consCode (Ecma48Code.c0 b) (scanAux rest ParseState.normal []))
      else scanAux rest ParseState.normal (acc ++ [b])
  | b :: rest, ParseState.esc, acc =>
      if b = 0x5b then scanAux rest (ParseState.csi [] 0 [0x1b, 0x5b]) acc
      else consCode (Ecma48Code.c1 b b [] [0x1b, b]) (scanAux rest ParseState.normal acc)
  | b :: rest, ParseState.csi params pacc raw, acc =>
      if 0x30 ≤ b ∧ b ≤ 0x39 then
        scanAux rest (ParseState.csi params (pacc * 10 + (b - 0x30)) (raw ++ [b])) acc
      else if b = 0x3b then
        scanAux rest (ParseState.csi (pushParam params pacc) 0 (raw ++ [b])) acc
      else
        consCode (Ecma48Code.c1 0x5b b (pushParam params pacc) (raw ++ [b]))
          (scanAux rest ParseState.normal acc)

/-- One decoding call over a chunk of bytes, resuming from a carried state. -/
def scanFrom (input : List Nat) (st : ParseState) : List Ecma48Code × ParseState :=
  scanAux input st []

/-! ### The attribute mapper (`win_terminal::write_sgr`) -/

/-- Embedding of `static const unsigned char sgr_to_attr[] = { 0, 4, 2, 6, 1, 5, 3, 7 };` -/
def sgr_to_attr : List Nat := [0, 4, 2, 6, 1, 5, 3, 7]

/-- Embedding of `sgr_to_attr[(param - base) & 7]`: the source subtracts `base` from the
`int` parameter and masks with 7; on a negative difference the two's-complement
bitwise AND equals the nonnegative remainder, i.e. `Int.emod`. -/
def sgrIdx (param base : Nat) : Nat :=
  sgr_to_attr.getD (((param : Int) - base).emod 8).toNat 0

/-- One iteration of the parameter loop of `win_terminal::write_sgr`
(win_terminal.cpp lines 540-605).  The range tests `param - 30 < 8`,
`param - 90 < 8`, `param - 40 < 8`, `param - 100 < 8` are signed `int`
comparisons in the source and are embedded as such (`(param : Int) - base < 8`);
for parameters below the base the difference is negative, so the test passes. -/
def sgrParamStep (defaultAttr : Nat) (attr : Nat) (param : Nat) : Nat :=
  if param = 0 then defaultAttr                                   -- reset
  else if param = 1 then attr ||| 0x08                            -- fg intensity (bright)
  else if param = 2 ∨ param = 22 then attr &&& 0xf7               -- fg intensity: attr &= ~0x08
  else if param = 4 then attr ||| 0x80                            -- bg intensity (bright)
  else if param = 24 then attr &&& 0x7f                           -- bg intensity: attr &= ~0x80
  else if (param : Int) - 30 < 8 then                             -- fg colour
    (attr &&& 0xf8) ||| sgrIdx param 30
  else if (param : Int) - 90 < 8 then                             -- fg colour (bright)
    ((attr ||| 0x08) &&& 0xf8) ||| sgrIdx param 90
  else if param = 39 then                                         -- default fg colour
    (attr &&& 0xf8) ||| (defaultAttr &&& 0x07)
  else if (param : Int) - 40 < 8 then                             -- bg colour
    (attr &&& 0x8f) ||| (sgrIdx param 40 <<< 4)
  else if (param : Int) - 100 < 8 then                            -- bg colour (bright)
    ((attr ||| 0x80) &&& 0x8f) ||| (sgrIdx param 100 <<< 4)
  else if param = 49 then                                         -- default bg colour
    (attr &&& 0x8f) ||| (defaultAttr &&& 0x70)
  else if param = 38 ∨ param = 48 then attr                       -- extended colour (skipped)
  else attr

/-- Embedding of `win_terminal::write_sgr`: fold the parameter loop over the current
attribute (the final `set_attr(attr)` stores the result). -/
def write_sgr (defaultAttr : Nat) (params : List Nat) (attr : Nat) : Nat :=
  params.foldl (sgrParamStep defaultAttr) attr

/-! ### The capability probe (`win_terminal::check_c1_support`) -/

/-- Embedding of `const char* dll_names[]` of `check_c1_support`. -/
def dll_names : List String :=
  ["conemuhk.dll", "conemuhk64.dll", "ansi.dll", "ansi32.dll", "ansi64.dll"]

/-- Embedding of `win_terminal::check_c1_support` (win_terminal.cpp lines 506-531), as a
function of which known third-party modules are resident in the host process
(`GetModuleHandle(dll_name) != nullptr`) and of the `terminal.ansi`
configuration flag.  Returns the value assigned to `m_enable_c1`: `false` if
any listed module is resident, else `!g_ansi.get()` — the negation is exactly
what the source computes. -/
def check_c1_support (residentModules : List String) (g_ansi : Bool) : Bool :=
  if dll_names.any (fun d => residentModules.contains d) then false
  else !g_ansi

/-! ### The output renderer (`win_terminal::write` and helpers) -/

/-- Embedding of `win_terminal::write_c0` (win_terminal.cpp lines 466-480): the bell byte
0x07 is swallowed, every other C0 byte is written through to the host.  The
host output is modelled as the list of values handed to the host write
primitive. -/
def write_c0 (c0 : Nat) : List Nat := if c0 = 0x07 then [] else [c0]

/-- Embedding of `win_terminal::write_c1` (win_terminal.cpp lines 442-463) for a decoded C1
code, returning the new attribute and the host output bytes.  When `m_enable_c1`
is false the code's raw bytes are passed through; when enabled, non-CSI codes
are discarded, a CSI with final `m` runs SGR processing, and any other final
character is discarded. -/
def write_c1 (enableC1 : Bool) (defaultAttr attr : Nat) (kind final : Nat)
    (params raw : List Nat) : Nat × List Nat :=
  if ¬ enableC1 then (attr, raw)
  else if kind ≠ 0x5b then (attr, [])
  else if final = 0x6d then (write_sgr defaultAttr params attr, [])
  else (attr, [])

/-- Session state of the output side of `win_terminal` used by `write`: the
decoder's persistent parse state `m_state`, the current attribute, the default
attribute, and `m_enable_c1`. -/
structure WinTerminal where
  state : ParseState
  attr : Nat
  defaultAttr : Nat
  enableC1 : Bool
  deriving DecidableEq, Repr

/-- Dispatch of one decoded code inside `win_terminal::write`'s loop, threading
(current attribute, host output so far). -/
def writeCodeStep (defaultAttr : Nat) (enableC1 : Bool) (s : Nat × List Nat)
    (code : Ecma48Code) : Nat × List Nat :=
  match code with
  | Ecma48Code.chars bs => (s.1, s.2 ++ bs)
  | Ecma48Code.c0 c => (s.1, s.2 ++ write_c0 c)
  | Ecma48Code.c1 kind final params raw =>
      let r := write_c1 enableC1 defaultAttr s.1 kind final params raw
      (r.1, s.2 ++ r.2)

/-- Embedding of `win_terminal::write` (win_terminal.cpp lines 483-503): run the decoder
over the chunk from the persistent parse state, dispatch every decoded code,
and store the advanced parse state and attribute.  Returns the new session
state and the host output of the call. -/
def win_write (t : WinTerminal) (bytes : List Nat) : WinTerminal × List Nat :=
  let r := scanFrom bytes t.state
  let f := r.1.foldl (writeCodeStep t.defaultAttr t.enableC1) (t.attr, [])
  ({ t with state := r.2, attr := f.1 }, f.2)

/-! ### Session lifecycle (`win_terminal::begin` / `win_terminal::end`) -/

/-- The host console state touched by the session lifecycle: the input handle's
console mode, the output handle's console mode, and the current text attributes
word (`CONSOLE_SCREEN_BUFFER_INFO.wAttributes`). -/
structure Host where
  inMode : Nat
  outMode : Nat
  attributes : Nat
  deriving DecidableEq, Repr

/-- The session fields set by `begin` and read by `end`:
`win_terminal_in::m_prev_mode`, `win_terminal_out::m_prev_mode`,
`m_default_attr`, `m_attr`, and `m_buffer_count` (zeroed by `in::begin`). -/
structure SessionSt where
  prevInMode : Nat
  prevOutMode : Nat
  defaultAttr : Nat
  attr : Nat
  bufferCount : Nat
  deriving DecidableEq, Repr

/-- Embedding of `ENABLE_WINDOW_INPUT`, the mode `win_terminal_in::begin` installs. -/
def ENABLE_WINDOW_INPUT : Nat := 0x0008

/-- Embedding of `win_terminal_in::begin`: zero the buffer count, save the input mode, set
`ENABLE_WINDOW_INPUT`. -/
def win_terminal_in_begin (h : Host) (s : SessionSt) : Host × SessionSt :=
  ({ h with inMode := ENABLE_WINDOW_INPUT },
   { s with prevInMode := h.inMode, bufferCount := 0 })

/-- Embedding of `win_terminal_in::end`: restore the saved input mode. -/
def win_terminal_in_end (h : Host) (s : SessionSt) : Host × SessionSt :=
  ({ h with inMode := s.prevInMode }, s)

/-- Embedding of `win_terminal_out::begin`: capture `csbi.wAttributes & 0xff` as the default
attribute, set the current attribute to it, and save the output mode (the host
state itself is only read). -/
def win_terminal_out_begin (h : Host) (s : SessionSt) : Host × SessionSt :=
  (h, { s with defaultAttr := h.attributes &&& 0xff,
               attr := h.attributes &&& 0xff,
               prevOutMode := h.outMode })

/-- Embedding of `win_terminal_out::end`: restore the saved output mode and set the console
text attribute to the captured default. -/
def win_terminal_out_end (h : Host) (s : SessionSt) : Host × SessionSt :=
  ({ h with outMode := s.prevOutMode, attributes := s.defaultAttr }, s)

/-- Embedding of `win_terminal::begin`: `win_terminal_in::begin(); win_terminal_out::begin();` -/
def win_terminal_begin (h : Host) (s : SessionSt) : Host × SessionSt :=
  let (h1, s1) := win_terminal_in_begin h s
  win_terminal_out_begin h1 s1

/-- Embedding of `win_terminal::end`: `win_terminal_out::end(); win_terminal_in::end();` -/
def win_terminal_end (h : Host) (s : SessionSt) : Host × SessionSt :=
  let (h1, s1) := win_terminal_out_end h s
  win_terminal_in_end h1 s1

/-- The host state after `begin()` immediately followed by `end()`. -/
def beginThenEnd (h : Host) (s : SessionSt) : Host :=
  let (h1, s1) := win_terminal_begin h s
  (win_terminal_end h1 s1).1

/-! ### Specification-side reference: UTF-8 of a Unicode scalar value -/

/-- The specification side of the input-encoder UTF-8 claim: the standard UTF-8
encoding of a Unicode scalar value (up to 21 bits), written from the spec's
words, to be compared with what the embedded `push` produces. -/
def specUtf8 (u : Nat) : List Nat :=
  if u < 0x80 then [u]
  else if u < 0x800 then [0xc0 ||| (u >>> 6), 0x80 ||| (u &&& 0x3f)]
  else if u < 0x10000 then
    [0xe0 ||| (u >>> 12), 0x80 ||| ((u >>> 6) &&& 0x3f), 0x80 ||| (u &&& 0x3f)]
  else
    [0xf0 ||| (u >>> 18), 0x80 ||| ((u >>> 12) &&& 0x3f),
     0x80 ||| ((u >>> 6) &&& 0x3f), 0x80 ||| (u &&& 0x3f)]

/-! ### The subprocess-execution facility (lua_exec.cpp) -/

/-- Embedding of `static const char* EOLS = "\r\n";` — is `c` a line terminator? -/
def isEol (c : Char) : Bool := c = '\r' || c = '\n'

/-- Embedding of `next_line` (lua_exec.cpp lines 152-172): terminate the current line at the
first CR/LF, consume the whole run of consecutive CR/LF bytes, and return the
line together with the rest of the buffer (`none` when the terminator run
reaches the end of the buffer or no terminator exists). -/
def next_line : List Char → List Char × Option (List Char)
  | [] => ([], none)
  | c :: rest =>
    if isEol c then
      let r := rest.dropWhile isEol
      ([], if r.isEmpty then none else some r)
    else
      let p := next_line rest
      (c :: p.1, p.2)

/-- The line-extraction do-while loop of `lua_execute` (lua_exec.cpp lines
316-332), with an explicit iteration bound (each iteration consumes at least
one terminator byte, so `s.length + 1` iterations always suffice; see
`split_lines_loop_congr`). -/
def split_lines_loop : Nat → List Char → List (List Char)
  | 0, _ => []
  | fuel + 1, s =>
    match next_line s with
    | (line, none) => [line]
    | (line, some r) => line :: split_lines_loop fuel r

/-- The table of lines `lua_execute` builds from the captured output: keys
`1..n` hold the successive lines (position `i` of this list is table key
`i + 1`). -/
def split_lines (s : List Char) : List (List Char) :=
  split_lines_loop (s.length + 1) s

/-- Modelled from the spec: a value on the Lua stack (the Lua C API is an
external library).  Only what `lua_execute` inspects is represented: whether
the value is a string (and its contents), a number, or anything else. -/
inductive LuaVal where
  | str (s : List Char)
  | num (n : Int)
  | other
  deriving DecidableEq, Repr

/-- Modelled from the spec: the scripting API's string test on the first
argument (`lua_isstring`). -/
def LuaVal.isStr : LuaVal → Bool
  | LuaVal.str _ => true
  | _ => false

/-- The host-side outcomes of the process-launch calls made by `lua_execute`:
whether `CreateJobObject`/`SetInformationJobObject` succeeded, whether the
first `CreateProcess` succeeded, whether its failure was
`ERROR_FILE_NOT_FOUND` and whether the `cmd.exe /c` retry then succeeded, the
bytes captured from the child's stdout pipe, and the child's exit code. -/
structure ExecHost where
  jobOk : Bool
  createOk : Bool
  fileNotFound : Bool
  cmdRetryOk : Bool
  output : List Char
  exitCode : Int
  deriving DecidableEq, Repr

/-- Was a process ultimately launched?  `CreateProcess` directly, or — on
`ERROR_FILE_NOT_FOUND` — the `cmd.exe /c` retry (lua_exec.cpp lines 227-250). -/
def processCreated (h : ExecHost) : Bool :=
  h.createOk || (h.fileNotFound && h.cmdRetryOk)

/-- Embedding of `lua_execute` (lua_exec.cpp lines 175-351) as a function of its Lua
arguments and of the host-call outcomes.  Returns `none` when the C function
returns 0 values (missing/non-string first argument, job-object failure, or
process-creation failure) and `some (lines, exit code)` when it returns the
2 values (the line table and `GetExitCodeProcess`'s result).  The optional
numeric timeout argument only parameterizes the watchdog thread and does not
affect the returned values. -/
def lua_execute (args : List LuaVal) (host : ExecHost) :
    Option (List (List Char) × Int) :=
  match args with
  | [] => none
  | arg1 :: _ =>
    if ¬ arg1.isStr then none
    else if ¬ host.jobOk then none
    else if ¬ processCreated host then none
    else some (split_lines host.output, host.exitCode)

end Clink

namespace Clink

/-! ### Helper lemmas for the decoder's restartability -/

theorem flushChars_snd (acc : List Nat) (r : List Ecma48Code × ParseState) :
    (flushChars acc r).2 = r.2 := by
  unfold flushChars; split <;> rfl

theorem flushChars_append (acc : List Nat) (l1 l2 : List Ecma48Code)
    (s s' : ParseState) :
    flushChars acc (l1 ++ l2, s) = ((flushChars acc (l1, s')).1 ++ l2, s) := by
  unfold flushChars; split <;> simp

theorem consCode_append (c : Ecma48Code) (l1 l2 : List Ecma48Code)
    (s s' : ParseState) :
    consCode c (l1 ++ l2, s) = ((consCode c (l1, s')).1 ++ l2, s) := by
  simp [consCode]

/-- Restartability of the scanner: if a chunk `a` leaves the scanner suspended
mid-sequence (final state not `normal`), then scanning `a ++ b` in one call
yields exactly the codes of `a` followed by the codes of `b` resumed from the
carried state, and the same final state.  The invariant hypothesis records that
the pending-text accumulator is empty whenever the scan state is inside a
sequence. -/
theorem scanAux_append (a : List Nat) : ∀ (st : ParseState) (acc : List Nat)
    (b : List Nat),
    (st ≠ ParseState.normal → acc = []) →
    (scanAux a st acc).2 ≠ ParseState.normal →
    scanAux (a ++ b) st acc
      = ((scanAux a st acc).1 ++ (scanAux b (scanAux a st acc).2 []).1,
         (scanAux b (scanAux a st acc).2 []).2) := by
  induction a with
  | nil =>
    intro st acc b hInv h2
    have hst : st ≠ ParseState.normal := by
      intro h
      exact h2 (by simp [scanAux, flushChars_snd, h])
    have hacc := hInv hst
    subst hacc
    simp [scanAux, flushChars]
  | cons x rest ih =>
    intro st acc b hInv h2
    match st with
    | ParseState.normal =>
      by_cases hx : x = 0x1b
      · have h2' : (scanAux rest ParseState.esc []).2 ≠ ParseState.normal := by
          simpa [scanAux, hx, flushChars_snd] using h2
        have hrec := ih ParseState.esc [] b (fun _ => rfl) h2'
        simp only [List.cons_append, scanAux, hx, if_pos, flushChars_snd,
          if_true, eq_self_iff_true, List.append_eq]
        rw [hrec]
        exact flushChars_append acc _ _ _ (scanAux rest ParseState.esc []).2
      · by_cases hlt : x < 0x20
        · have h2' : (scanAux rest ParseState.normal []).2 ≠ ParseState.normal := by
            simpa [scanAux, hx, hlt, flushChars_snd, consCode] using h2
          have hrec := ih ParseState.normal [] b (fun h => rfl) h2'
          simp only [List.cons_append, scanAux, hx, hlt, if_false, if_true,
            if_neg, if_pos, flushChars_snd, consCode, List.append_eq]
          rw [hrec]
          have h1 := flushChars_append acc
            (Ecma48Code.c0 x :: (scanAux rest ParseState.normal []).1)
            (scanAux b (scanAux rest ParseState.normal []).2 []).1
            (scanAux b (scanAux rest ParseState.normal []).2 []).2
            (scanAux rest ParseState.normal []).2
          simpa [consCode] using h1
        · have h2' : (scanAux rest ParseState.normal (acc ++ [x])).2
              ≠ ParseState.normal := by
            simpa [scanAux, hx, hlt] using h2
          have hrec := ih ParseState.normal (acc ++ [x]) b (fun h => by simp at h) h2'
          simpa [scanAux, hx, hlt] using hrec
    | ParseState.esc =>
      have hacc := hInv (by simp)
      subst hacc
      by_cases hx : x = 0x5b
      · have h2' : (scanAux rest (ParseState.csi [] 0 [0x1b, 0x5b]) []).2
            ≠ ParseState.normal := by
          simpa [scanAux, hx] using h2
        have hrec := ih (ParseState.csi [] 0 [0x1b, 0x5b]) [] b
          (fun _ => rfl) h2'
        simpa [scanAux, hx] using hrec
      · have h2' : (scanAux rest ParseState.normal []).2 ≠ ParseState.normal := by
          simpa [scanAux, hx, consCode] using h2
        have hrec := ih ParseState.normal [] b (fun h => rfl) h2'
        simp only [List.cons_append, scanAux, hx, if_neg, if_false, consCode,
          List.append_eq]
        rw [hrec]
    | ParseState.csi p pa raw =>
      have hacc := hInv (by simp)
      subst hacc
      by_cases hd : 0x30 ≤ x ∧ x ≤ 0x39
      · have h2' : (scanAux rest
            (ParseState.csi p (pa * 10 + (x - 0x30)) (raw ++ [x])) []).2
            ≠ ParseState.normal := by
          simpa [scanAux, hd] using h2
        have hrec := ih (ParseState.csi p (pa * 10 + (x - 0x30)) (raw ++ [x])) [] b
          (fun _ => rfl) h2'
        simpa [scanAux, hd] using hrec
      · by_cases hs : x = 0x3b
        · have h2' : (scanAux rest
              (ParseState.csi (pushParam p pa) 0 (raw ++ [x])) []).2
              ≠ ParseState.normal := by
            simpa [scanAux, hd, hs] using h2
          have hrec := ih (ParseState.csi (pushParam p pa) 0 (raw ++ [x])) [] b
            (fun _ => rfl) h2'
          simpa [scanAux, hd, hs] using hrec
        · have h2' : (scanAux rest ParseState.normal []).2 ≠ ParseState.normal := by
            simpa [scanAux, hd, hs, consCode] using h2
          have hrec := ih ParseState.normal [] b (fun h => rfl) h2'
          simp only [List.cons_append, scanAux, hd, hs, if_neg, if_false, consCode,
            List.append_eq]
          rw [hrec]

theorem writeCodeStep_shift (d : Nat) (e : Bool) (attr : Nat) (out : List Nat)
    (c : Ecma48Code) :
    writeCodeStep d e (attr, out) c
      = ((writeCodeStep d e (attr, []) c).1,
         out ++ (writeCodeStep d e (attr, []) c).2) := by
  cases c <;> simp [writeCodeStep]

/-- The host output accumulated by `win_terminal::write`'s dispatch loop only
ever grows at the tail: folding from `(attr, out)` equals folding from
`(attr, [])` with `out` prefixed. -/
theorem foldl_writeCodeStep_shift (d : Nat) (e : Bool) (codes : List Ecma48Code) :
    ∀ (attr : Nat) (out : List Nat),
    codes.foldl (writeCodeStep d e) (attr, out)
      = ((codes.foldl (writeCodeStep d e) (attr, [])).1,
         out ++ (codes.foldl (writeCodeStep d e) (attr, [])).2) := by
  induction codes with
  | nil => intro attr out; simp
  | cons c cs ih =>
    intro attr out
    rcases hp : writeCodeStep d e (attr, []) c with ⟨a1, o1⟩
    have hshift := writeCodeStep_shift d e attr out c
    rw [hp] at hshift
    rw [List.foldl_cons, List.foldl_cons, hshift, hp, ih a1 (out ++ o1), ih a1 o1]
    simp [List.append_assoc]

/-- C1: Ctrl+A (virtual key 0x41, scan code 0x1e, no Unicode value, left Ctrl
held, key down) does NOT produce the control byte 0x01: the source remaps
`key_vk` to 1 but pushes `key_char`, which is 0, so the buffer receives the
single byte 0x00.  Evaluation of the embedded code at the failing input. -/
theorem ctrl_a_pushes_nul :
    contents (read_console_key true ⟨true, 0, 0x41, 0x1e, LEFT_CTRL_PRESSED⟩ emptyTermIn)
      = [0x00] ∧ [0x00] ≠ [0x01] := by
  constructor
  · decide
  · decide

/-- C2: evaluation of the code at the failing input for the ring-buffer
invariant.  Pushing 14 single bytes and then one three-byte UTF-8 character
(U+20AC) into the 16-byte buffer: the space check fails, the bytes are not
written, but `m_buffer_count += n` still runs, leaving `count = 17 > 16 =
capacity` — the invariant `count ≤ capacity` is violated. -/
theorem push_overflow_breaks_invariant :
    ((List.replicate 14 0x61 ++ [0x20ac]).foldl push emptyTermIn).count = 17 ∧
    ((List.replicate 14 0x61 ++ [0x20ac]).foldl push emptyTermIn).bufferSize = 16 ∧
    ¬ (17 ≤ 16) := by
  refine ⟨by decide, by decide, by decide⟩

/-- C8: an Arrow-Up key-down event (virtual key VK_UP, scan code 0x48, no
Unicode value) with no modifiers pushes exactly ESC `[` `A`; with left or right
Ctrl held it pushes exactly ESC `O` `A`. -/
theorem arrow_up_encoding :
    contents (read_console_key true ⟨true, 0, VK_UP, 0x48, 0⟩ emptyTermIn)
      = [0x1b, 0x5b, 0x41] ∧
    contents (read_console_key true ⟨true, 0, VK_UP, 0x48, LEFT_CTRL_PRESSED⟩ emptyTermIn)
      = [0x1b, 0x4f, 0x41] ∧
    contents (read_console_key true ⟨true, 0, VK_UP, 0x48, RIGHT_CTRL_PRESSED⟩ emptyTermIn)
      = [0x1b, 0x4f, 0x41] := by
  refine ⟨by decide, by decide, by decide⟩

/-- C3: evaluation of the code at the failing input for the capability probe.
With no third-party ANSI module resident and the `terminal.ansi` flag at its
default `true`, `check_c1_support` assigns `m_enable_c1 = !g_ansi.get() =
false` — escape-code interpretation is disabled, the opposite of the claimed
"enabled iff no module resident and the flag is set"; symmetrically, clearing
the flag enables interpretation. -/
theorem check_c1_support_inverts_flag :
    check_c1_support [] true = false ∧ check_c1_support [] false = true := by
  refine ⟨by decide, by decide⟩

/-- C4: evaluation of the code at the failing input for SGR parameter
handling.  Parameter 3 (italic; not in the recognized set) does not leave the
attribute unchanged: the signed range check `param - 30 < 8` passes for every
parameter below 38, so 3 is treated as a foreground colour and rewrites
attribute 0x07 to `sgr_to_attr[(3 - 30) & 7] = sgr_to_attr[5] = 0x05`. -/
theorem sgr_param3_changes_attr :
    write_sgr 0x07 [3] 0x07 = 0x05 ∧ (0x05 : Nat) ≠ 0x07 := by
  refine ⟨by decide, by decide⟩

/-- C7 (counterexample): `begin()` then `end()` does not restore the host
attribute exactly for every initial host state.  With initial attributes word
0x0107 (a `COMMON_LVB` bit above the low byte set), `out::begin` captures only
`wAttributes & 0xff = 0x07` and `out::end` restores that, so the final
attributes differ from the initial ones (the modes are restored exactly). -/
theorem begin_end_high_attr_bits_lost :
    beginThenEnd ⟨3, 7, 0x0107⟩ ⟨0, 0, 0, 0, 0⟩ ≠ ⟨3, 7, 0x0107⟩ ∧
    (beginThenEnd ⟨3, 7, 0x0107⟩ ⟨0, 0, 0, 0, 0⟩).attributes = 0x0007 := by
  refine ⟨by decide, by decide⟩

/-- C7 (amended): for every initial host state and session state, `begin()`
immediately followed by `end()` restores the host input mode and output mode
exactly, and restores the attributes word to its low byte
(`wAttributes & 0xff`) — which equals the original exactly when the initial
attributes fit in one byte. -/
theorem begin_end_restores_host (h : Host) (s : SessionSt) :
    (beginThenEnd h s).inMode = h.inMode ∧
    (beginThenEnd h s).outMode = h.outMode ∧
    (beginThenEnd h s).attributes = h.attributes &&& 0xff := by
  refine ⟨rfl, rfl, rfl⟩

/-- C6: chunk-split invariance of `write`.  If a first chunk `a` leaves the
decoder suspended inside an escape sequence (its parse state is not `normal`),
then for any continuation `b`: the codes decoded from `a ++ b` in one `write`
call are exactly the codes of `a` followed by the codes of `b` resumed from the
persisted state; the session state (parse state and attribute) after the two
split calls equals the state after the single call; and the host output of the
single call is the concatenation of the two calls' outputs. -/
theorem write_split_agrees (t : WinTerminal) (a b : List Nat)
    (h0 : t.state = ParseState.normal)
    (h1 : (win_write t a).1.state ≠ ParseState.normal) :
    (scanFrom (a ++ b) ParseState.normal).1
      = (scanFrom a ParseState.normal).1
        ++ (scanFrom b (win_write t a).1.state).1 ∧
    (win_write (win_write t a).1 b).1 = (win_write t (a ++ b)).1 ∧
    (win_write t (a ++ b)).2
      = (win_write t a).2 ++ (win_write (win_write t a).1 b).2 := by
  obtain ⟨ts, ta, td, te⟩ := t
  have hts : ts = ParseState.normal := h0
  subst hts
  have h1' : (scanAux a ParseState.normal []).2 ≠ ParseState.normal := h1
  have key := scanAux_append a ParseState.normal [] b (fun _ => rfl) h1'
  refine ⟨?_, ?_, ?_⟩
  · simp only [win_write, scanFrom, key]
  · simp only [win_write, scanFrom, key, List.foldl_append]
    rcases hFA : (scanAux a ParseState.normal []).1.foldl
      (writeCodeStep td te) (ta, []) with ⟨a1, o1⟩
    rw [foldl_writeCodeStep_shift td te _ a1 o1]
  · simp only [win_write, scanFrom, key, List.foldl_append]
    rcases hFA : (scanAux a ParseState.normal []).1.foldl
      (writeCodeStep td te) (ta, []) with ⟨a1, o1⟩
    rw [foldl_writeCodeStep_shift td te _ a1 o1]

/-- Witness for C6: the SGR sequence `ESC [ 3 1 m` split as `ESC [ 3` plus
`1 m`, fed to a session with attribute 0x07: the split leaves the decoder
mid-sequence, and both routes agree on the codes, the final session state, and
the output. -/
theorem write_split_agrees_witness :
    (win_write ⟨ParseState.normal, 0x07, 0x07, true⟩ [0x1b, 0x5b, 0x33]).1.state
      ≠ ParseState.normal ∧
    (scanFrom ([0x1b, 0x5b, 0x33] ++ [0x31, 0x6d]) ParseState.normal).1
      = (scanFrom [0x1b, 0x5b, 0x33] ParseState.normal).1
        ++ (scanFrom [0x31, 0x6d]
            (win_write ⟨ParseState.normal, 0x07, 0x07, true⟩ [0x1b, 0x5b, 0x33]).1.state).1 ∧
    (win_write (win_write ⟨ParseState.normal, 0x07, 0x07, true⟩ [0x1b, 0x5b, 0x33]).1
        [0x31, 0x6d]).1
      = (win_write ⟨ParseState.normal, 0x07, 0x07, true⟩
          ([0x1b, 0x5b, 0x33] ++ [0x31, 0x6d])).1 := by
  have h := write_split_agrees ⟨ParseState.normal, 0x07, 0x07, true⟩
    [0x1b, 0x5b, 0x33] [0x31, 0x6d] rfl (by decide)
  exact ⟨by decide, h.1, h.2.1⟩

/-- C9: with escape-code interpretation enabled, `write_c1` discards any
decoded C1 code that is not a CSI sequence, and any CSI sequence whose final
character is not `m` (0x6d): the attribute is unchanged and no host output is
produced. -/
theorem write_c1_discards_non_sgr (defaultAttr attr kind final : Nat)
    (params raw : List Nat) (h : kind ≠ 0x5b ∨ final ≠ 0x6d) :
    write_c1 true defaultAttr attr kind final params raw = (attr, []) := by
  rcases h with h | h
  · simp [write_c1, h]
  · unfold write_c1
    by_cases hk : kind = 0x5b <;> simp [hk, h]

/-- C5 (counterexample): an astral scalar does not survive encoding.  For a
key-down event carrying the 21-bit scalar U+1F600 with no modifiers, `push`
casts the value to `wchar_t`, truncating it to 0xF600, so the buffer receives
the UTF-8 of U+F600 (`EF 98 80`) and not the UTF-8 of U+1F600
(`F0 9F 98 80`). -/
theorem encode_truncates_astral_scalar :
    contents (read_console_key true ⟨true, 0x1f600, 0, 0, 0⟩ emptyTermIn)
      = [0xef, 0x98, 0x80] ∧
    specUtf8 0x1f600 = [0xf0, 0x9f, 0x98, 0x80] ∧
    contents (read_console_key true ⟨true, 0x1f600, 0, 0, 0⟩ emptyTermIn)
      ≠ specUtf8 0x1f600 := by
  refine ⟨by decide, by decide, by decide⟩

/-- C5 (amended): for every key-down event whose Unicode value is a nonzero
scalar below 0x10000 (the host event field is a single UTF-16 unit) outside the
surrogate range, with no modifiers held, the encoder appends to the empty ring
buffer exactly the UTF-8 encoding of that scalar, byte for byte. -/
theorem encode_utf8_bmp (g : Bool) (u vk sc : Nat) (h1 : 0 < u)
    (h2 : u < 0x10000) (h3 : ¬ (0xd800 ≤ u ∧ u < 0xe000)) :
    contents (read_console_key g ⟨true, u, vk, sc, 0⟩ emptyTermIn) = specUtf8 u := by
  have hu0 : u ≠ 0 := Nat.pos_iff_ne_zero.mp h1
  have hred : read_console_key g ⟨true, u, vk, sc, 0⟩ emptyTermIn
      = push emptyTermIn u := by
    simp [read_console_key, hu0, emptyTermIn]
  rw [hred]
  have hw : u % 0x10000 = u := Nat.mod_eq_of_lt h2
  by_cases hA : u < 0x80
  · simp [push, emptyTermIn, contents, popList, pop, specUtf8, hA,
      Function.update]
  · by_cases hB : u < 0x800
    · simp [push, emptyTermIn, contents, popList, pop, specUtf8, to_utf8_unit,
        writeBytes, hw, hA, hB, Function.update]
    · have e2 : (2 : Nat) &&& 15 = 2 := by decide
      simp [push, emptyTermIn, contents, popList, pop, specUtf8, to_utf8_unit,
        writeBytes, hw, hA, hB, h2, e2, Function.update]

/-- Witness for C5's amended theorem: the event carrying U+20AC with no
modifiers yields exactly `E2 82 AC`. -/
theorem encode_utf8_bmp_witness :
    contents (read_console_key true ⟨true, 0x20ac, 0, 0, 0⟩ emptyTermIn)
      = specUtf8 0x20ac ∧
    specUtf8 0x20ac = [0xe2, 0x82, 0xac] :=
  ⟨encode_utf8_bmp true 0x20ac 0 0 (by decide) (by decide) (by decide), by decide⟩

/-! ### Helper lemmas for the line splitter -/

theorem dropWhile_length_le {α : Type} (p : α → Bool) (l : List α) :
    (l.dropWhile p).length ≤ l.length := by
  induction l with
  | nil => simp [List.dropWhile]
  | cons x xs ih =>
    rw [List.dropWhile]
    by_cases hx : p x
    · simp only [hx, if_true]
      exact Nat.le_succ_of_le ih
    · simp [hx]

/-- When `next_line` reports more input remains, that rest is strictly shorter
than the input (at least one terminator byte was consumed). -/
theorem next_line_rest_length : ∀ (s line r : List Char),
    next_line s = (line, some r) → r.length < s.length := by
  intro s
  induction s with
  | nil => intro line r h; simp [next_line] at h
  | cons c rest ih =>
    intro line r h
    by_cases hc : isEol c
    · simp only [next_line, hc, if_true] at h
      by_cases he : (rest.dropWhile isEol).isEmpty
      · simp [he] at h
      · simp only [he, if_false] at h
        have hr : rest.dropWhile isEol = r := congrArg Prod.snd h |> Option.some.inj
        rw [← hr]
        exact Nat.lt_succ_of_le (dropWhile_length_le isEol rest)
    · simp only [next_line, hc, if_false] at h
      have h2 : (next_line rest).2 = some r := congrArg Prod.snd h
      have h3 : next_line rest = ((next_line rest).1, some r) := by
        rw [← h2]
      exact Nat.lt_succ_of_lt (ih (next_line rest).1 r h3)

/-- The iteration bound of `split_lines_loop` is irrelevant once it exceeds the
input length: the fuel encoding computes the unbounded do-while loop. -/
theorem split_lines_loop_congr : ∀ (f1 : Nat) (s : List Char) (f2 : Nat),
    s.length < f1 → s.length < f2 →
    split_lines_loop f1 s = split_lines_loop f2 s := by
  intro f1
  induction f1 with
  | zero => intro s f2 h1 _; exact absurd h1 (Nat.not_lt_zero _)
  | succ f ih =>
    intro s f2 h1 h2
    cases f2 with
    | zero => exact absurd h2 (Nat.not_lt_zero _)
    | succ g =>
      simp only [split_lines_loop]
      rcases hn : next_line s with ⟨line, rest⟩
      cases rest with
      | none => rfl
      | some r =>
        have hr : r.length < s.length := next_line_rest_length s line r hn
        simp only []
        rw [ih r g (by omega) (by omega)]

/-- Proof that `split_lines` satisfies the do-while loop's natural recurrence. -/
theorem split_lines_eq (s : List Char) :
    split_lines s = (match next_line s with
      | (line, none) => [line]
      | (line, some r) => line :: split_lines r) := by
  unfold split_lines
  rw [split_lines_loop]
  rcases hn : next_line s with ⟨line, rest⟩
  cases rest with
  | none => rfl
  | some r =>
    have hr : r.length < s.length := next_line_rest_length s line r hn
    simp only []
    rw [split_lines_loop_congr s.length r (r.length + 1) (by omega) (by omega)]

/-- C10: the subprocess-execution facility's contract.  (a) A missing or
non-string first argument returns no values; (b) if no process was launched
(job-object failure or both `CreateProcess` attempts failing) it returns no
values; (c) when the process is launched it returns exactly the table whose
keys `1..n` hold the successive CR/LF-split lines of the captured standard
output, together with the process exit code. -/
theorem lua_execute_contract (args : List LuaVal) (host : ExecHost) :
    ((∀ v, args.head? = some v → v.isStr = false) →
      lua_execute args host = none) ∧
    (¬ (host.jobOk = true ∧ processCreated host = true) →
      lua_execute args host = none) ∧
    (∀ s rest, args = LuaVal.str s :: rest → host.jobOk = true →
      processCreated host = true →
      lua_execute args host = some (split_lines host.output, host.exitCode)) := by
  refine ⟨?_, ?_, ?_⟩
  · intro hv
    cases args with
    | nil => rfl
    | cons a rest =>
      have ha := hv a rfl
      simp [lua_execute, ha]
  · intro hno
    cases args with
    | nil => rfl
    | cons a rest =>
      by_cases ha : a.isStr
      · by_cases hj : host.jobOk
        · have hc : ¬ processCreated host = true := fun hcc => hno ⟨hj, hcc⟩
          simp [lua_execute, ha, hj, hc]
        · simp [lua_execute, ha, hj]
      · simp [lua_execute, ha]
  · intro s rest harg hj hc
    subst harg
    simp [lua_execute, LuaVal.isStr, hj, hc]

/-- Witness for C10: running a command whose captured output is `a CR LF b`
with a successful launch returns the table `{1 = "a", 2 = "b"}` and exit
code 0. -/
theorem lua_execute_contract_witness :
    lua_execute [LuaVal.str ['d', 'i', 'r']]
        ⟨true, true, false, false, ['a', '\r', '\n', 'b'], 0⟩
      = some ([['a'], ['b']], 0) ∧
    split_lines ['a', '\r', '\n', 'b'] = [['a'], ['b']] := by
  have h := (lua_execute_contract [LuaVal.str ['d', 'i', 'r']]
    ⟨true, true, false, false, ['a', '\r', '\n', 'b'], 0⟩).2.2
    ['d', 'i', 'r'] [] rfl rfl rfl
  refine ⟨?_, by decide⟩
  rw [h]
  decide

/-- Witness for C9: a non-CSI C1 code (ESC `E`, kind 0x45) and a CSI with
final `H` (cursor positioning) are both discarded with the attribute intact. -/
theorem write_c1_discards_non_sgr_witness :
    write_c1 true 0x07 0x17 0x45 0x45 [] [0x1b, 0x45] = (0x17, []) ∧
    write_c1 true 0x07 0x17 0x5b 0x48 [2, 3] [0x1b, 0x5b, 0x32, 0x3b, 0x33, 0x48]
      = (0x17, []) := by
  refine ⟨write_c1_discards_non_sgr 0x07 0x17 0x45 0x45 [] [0x1b, 0x45]
      (Or.inl (by decide)),
    write_c1_discards_non_sgr 0x07 0x17 0x5b 0x48 [2, 3]
      [0x1b, 0x5b, 0x32, 0x3b, 0x33, 0x48] (Or.inr (by decide))⟩

end Clink
